import Mathlib

/-!
# Verification of the Lua safety-bridge core

A shallow embedding of the repository's safety bridge between a host
application and an embedded Lua-family virtual machine.  The engine's value
stack is modelled as a Lean list (head = top of stack), the C-API primitives
used by `protected.rs` and `function.rs` are modelled as pure functions on
that list, and the error taxonomy is transcribed from `error.rs`.  Parts of
the bridge that the repository only declares or tests (the stack guard,
`pop_error`, the userdata borrow cell, the conversion protocol, coroutine
resumption) are modelled from the specification, as flagged in their doc
comments.
-/

set_option linter.unusedVariables false

/-- The closed error taxonomy, transcribed from `error.rs` (`enum Error`).
`Arc<Error>` is flattened to a plain recursive occurrence and the opaque
`failure::Error` payload of `ExternalError` is modelled by its message. -/
inductive Error where
  | SyntaxError (message : String) (incomplete_input : Bool)
  | RuntimeError (message : String)
  | GarbageCollectorError (message : String)
  | RecursiveCallbackError
  | ExpiredUserData
  | ToLuaConversionError (from_ : String) (to_ : String) (message : Option String)
  | FromLuaConversionError (from_ : String) (to_ : String) (message : Option String)
  | CoroutineInactive
  | UserDataTypeMismatch
  | UserDataBorrowError
  | UserDataBorrowMutError
  | CallbackError (traceback : String) (cause : Error)
  | ExternalError (message : String)
deriving DecidableEq, Repr

/-- Lua numbers (the float subtype): a finite value, or one of the two
infinities produced e.g. by `math.huge`.  Finite floats are modelled
exactly as rationals; no rounding behaviour is relied upon. -/
inductive LuaFloat where
  | finite (q : ℚ)
  | inf
  | neginf
deriving DecidableEq, Repr

/-- Keys of a Lua table (the cases the bridge's tests exercise). -/
inductive LuaKey where
  | kbool (b : Bool)
  | kint (n : ℤ)
  | kstr (s : String)
deriving DecidableEq, Repr

/-- A Lua value as seen through the bridge.  `cfunction` carries a tag
identifying which C function was pushed; `wrappedError` is the opaque
userdata payload a Rust callback's `Err` is raised as, and `wrappedPanic`
is the payload a caught host panic travels as.  Tables are modelled by
their association list of fields (reference identity is not needed by the
claims under verification). -/
inductive LuaValue where
  | nil
  | boolean (b : Bool)
  | integer (n : ℤ)
  | number (x : LuaFloat)
  | str (s : String)
  | table (fields : List (LuaKey × LuaValue))
  | cfunction (tag : ℕ)
  | wrappedError (cause : Error)
  | wrappedPanic
  | luafunction (tag : ℕ)

/-- The Lua type name of a value, as `lua_typename` reports it. -/
def luaTypeName : LuaValue → String
  | .nil => "nil"
  | .boolean _ => "boolean"
  | .integer _ => "number"
  | .number _ => "number"
  | .str _ => "string"
  | .table _ => "table"
  | .cfunction _ => "function"
  | .luafunction _ => "function"
  | .wrappedError _ => "userdata"
  | .wrappedPanic => "userdata"

/-- The `lua_type` tag of a value (the numeric constants of `lua.h`). -/
def lua_type : LuaValue → ℤ
  | .nil => 0
  | .boolean _ => 1
  | .integer _ => 3
  | .number _ => 3
  | .str _ => 4
  | .table _ => 5
  | .cfunction _ => 6
  | .luafunction _ => 6
  | .wrappedError _ => 7
  | .wrappedPanic => 7

/-! ## The value stack and the C-API primitives

The engine's value stack, with the head of the list as the TOP of the
stack.  Positive indices count from the bottom (index 1 is the bottom
slot), negative indices count from the top (index -1 is the top slot),
exactly as in the C API. -/

abbrev Stack := List LuaValue

/-- `lua_gettop`: the number of values on the stack. -/
def lua_gettop (s : Stack) : ℕ := s.length

/-- `lua_absindex`: convert a possibly-negative stack index into an
absolute (from-the-bottom) index. -/
def lua_absindex (s : Stack) (idx : ℤ) : ℤ :=
  if 0 < idx then idx else (s.length : ℤ) + idx + 1

/-- Read the value at a stack index (`nil` for an invalid index, which no
modelled operation relies on). -/
def stackGet (s : Stack) (idx : ℤ) : LuaValue :=
  if idx < 0 then s.getD ((-idx).toNat - 1) .nil
  else s.getD (s.length - idx.toNat) .nil

/-- `lua_pushvalue`: push a copy of the value at the given index. -/
def lua_pushvalue (s : Stack) (idx : ℤ) : Stack :=
  stackGet s idx :: s

/-- `lua_remove`: remove the value at the given index, shifting the values
above it down. -/
def lua_remove (s : Stack) (idx : ℤ) : Stack :=
  if idx < 0 then s.eraseIdx ((-idx).toNat - 1)
  else s.eraseIdx (s.length - idx.toNat)

/-- `lua_settop` with a non-negative target height: pop down to the target
height, or pad with `nil` up to it. -/
def lua_settop (s : Stack) (n : ℕ) : Stack :=
  if n ≤ s.length then s.drop (s.length - n)
  else List.replicate (n - s.length) .nil ++ s

/-- `lua_pop n` = drop the top `n` values. -/
def lua_pop (s : Stack) (n : ℕ) : Stack := s.drop n

/-- `lua_rawget` on a table's field list: the value stored at a key, `nil`
when absent. -/
def lua_rawget (fields : List (LuaKey × LuaValue)) (k : LuaKey) : LuaValue :=
  ((fields.find? (fun p => p.1 == k)).map (fun p => p.2)).getD .nil

/-- View of a value as a table key (Lua booleans, integers and strings). -/
def asKey : LuaValue → Option LuaKey
  | .boolean b => some (.kbool b)
  | .integer n => some (.kint n)
  | .str s => some (.kstr s)
  | _ => none

/-- Outcome of invoking a callable through the engine: a list of results,
or an abort carrying the single error-payload value (a caught host panic
travels as an abort whose payload is `wrappedPanic`). -/
inductive CallOutcome where
  | ok (results : List LuaValue)
  | abort (payload : LuaValue)

/-- Semantics environment for calls: how each callable value behaves on an
argument list.  The theorems below are parametric in this, so they hold
for every behaviour of the callee. -/
abbrev CalleeSem := LuaValue → List LuaValue → CallOutcome

/-- Result of `lua_pcall`: `LUA_OK` together with the new stack, or an
error status with the (handler-transformed) payload pushed on the base
stack. -/
inductive PcallResult where
  | ok (s : Stack)
  | err (s : Stack)

/-- Adjust a result list to exactly `n` values, trimming the excess or
padding with `nil`, as `lua_pcall` does for a fixed `nresults`. -/
def adjustResults (rs : List LuaValue) (n : ℕ) : List LuaValue :=
  rs.take n ++ List.replicate (n - rs.length) .nil

/-- `lua_pcall(state, nargs, nresults, msgh)`: the function and its `nargs`
arguments are on top of the stack; on success they are replaced by the
results (all of them for `LUA_MULTRET = none`, else exactly `nresults`);
on an abort they are replaced by the single payload value, transformed by
the message handler `msgh`. -/
def lua_pcall (sem : CalleeSem) (msgh : LuaValue → LuaValue) (s : Stack)
    (nargs : ℕ) (nresults : Option ℕ) : PcallResult :=
  let f := s.getD nargs .nil
  let args := (s.take nargs).reverse
  let base := s.drop (nargs + 1)
  match sem f args with
  | .ok rs =>
      let rs' := match nresults with
        | none => rs
        | some n => adjustResults rs n
      .ok (rs'.reverse ++ base)
  | .abort e => .err (msgh e :: base)

/-! ## Error decoding at the host boundary

`util.rs` (the stack guard, `pop_error`, `handle_error`, the traceback
message handler) is part of this repository but is not present under
`src/`; the definitions below are modelled from the specification's
Protected Call Layer and Stack Guard contracts. -/

/-- What reaches the host after a protected call fails: a typed `Error`
value, or a re-raised host panic. -/
inductive Popped where
  | err (e : Error)
  | panicked
deriving DecidableEq

/-- How the host sees the completion of a bridge primitive: a result, a
typed `Error`, or a resumed host panic.  No fourth outcome exists: the
bridge never lets a raw engine abort cross into the host. -/
inductive HostOutcome (α : Type) where
  | ok (a : α)
  | err (e : Error)
  | panicked
deriving DecidableEq

/-- Modelled from the spec: the traceback message handler (`error_traceback`
in the repository's `util.rs`, not under `src/`).  Installed as the message
handler of every protected call; it receives the abort payload while the
erroring frames are still live and attaches the traceback text `tb`: a
wrapped host error becomes a wrapped `CallbackError` carrying the traceback
and the original cause, a plain string has the traceback appended, and a
travelling host panic is passed through untouched. -/
def error_traceback (tb : String) : LuaValue → LuaValue
  | .wrappedError e => .wrappedError (.CallbackError tb e)
  | .str m => .str (m ++ "\n" ++ tb)
  | v => v

/-- The marker by which the bridge recognizes a collector (`__gc`
metamethod) error in a string payload. -/
def gc_error_marker : String := "error in __gc"

/-- Whether a payload string matches the collector-error marker (the marker
text opens the message). -/
def matches_gc_marker (m : String) : Bool :=
  gc_error_marker.data.isPrefixOf m.data

/-- Modelled from the spec: the payload-to-`Error` decoding performed by
`pop_error` (in the repository's `util.rs`, not under `src/`): a string
payload matching the recognized collector-error marker decodes as
`GarbageCollectorError`; a wrapped host error object decodes as the error
it carries (a `CallbackError` with traceback and original cause, as built
by the message handler); any other payload decodes as `RuntimeError` with
the stringified payload. -/
def pop_error_decode : LuaValue → Error
  | .str m =>
      if matches_gc_marker m then .GarbageCollectorError m
      else .RuntimeError m
  | .wrappedError e => e
  | v => .RuntimeError (luaTypeName v)

/-- Modelled from the spec: `pop_error` (in the repository's `util.rs`, not
under `src/`).  Pops the single abort payload off the stack and decodes it;
a travelling host panic payload instead neutralizes the engine's stack
state (`lua_settop(state, 0)`) and re-raises the panic to the host. -/
def pop_error (s : Stack) : Popped × Stack :=
  match s with
  | [] => (.err (.RuntimeError "missing error payload"), [])
  | p :: rest =>
      match p with
      | .wrappedPanic => (.panicked, [])
      | p => (.err (pop_error_decode p), rest)

/-- Modelled from the spec: `handle_error` (in the repository's `util.rs`,
not under `src/`): an `LUA_OK` status passes the stack through; an error
status pops and decodes the payload via `pop_error`. -/
def handle_error (r : PcallResult) : HostOutcome Unit × Stack :=
  match r with
  | .ok s => (.ok (), s)
  | .err s =>
      match pop_error s with
      | (.err e, s') => (.err e, s')
      | (.panicked, s') => (.panicked, s')

/-- Modelled from the spec: `pcall_with_traceback` (in the repository's
`util.rs`, not under `src/`): a protected call whose message handler is the
traceback handler, so the abort payload reaching `handle_error` is already
traceback-annotated.  `tb` is the traceback text captured at the abort
site. -/
def pcall_with_traceback (sem : CalleeSem) (tb : String) (s : Stack)
    (nargs : ℕ) (nresults : Option ℕ) : PcallResult :=
  lua_pcall sem (error_traceback tb) s nargs nresults

/-- Modelled from the spec: `stack_err_guard` (in the repository's
`util.rs`, not under `src/`).  Records the stack height, runs the
operation, and restores the stack: on success to the recorded height plus
the declared `change` (trimming on mismatch), on a returned error to
exactly the recorded height; a propagating host panic bypasses the guard
(the stack was already neutralized where the panic was re-raised). -/
def stack_err_guard {α : Type} (change : ℕ) (s : Stack)
    (op : Stack → HostOutcome α × Stack) : HostOutcome α × Stack :=
  let top := lua_gettop s
  match op s with
  | (.ok a, s') => (.ok a, lua_settop s' (top + change))
  | (.err e, s') => (.err e, lua_settop s' top)
  | (.panicked, s') => (.panicked, s')

/-! ## The protected stack primitives (`protected.rs`)

`pgettable` transcribed from `protected.rs` lines 9-24.  The local C
function `gettable` performs `lua_gettable(state, -2)` on its two
arguments and returns one result; its tag is `gettable_tag`.  A `CalleeSem`
`sem` gives the behaviour of the indexing operation itself (including any
`__index` metamethod the engine might run), so the stack-discipline
theorems hold for every behaviour of the callee. -/

def gettable_tag : ℕ := 1

/-- The behaviour of the local C function `gettable` of `pgettable` when
indexing hits a plain table or a non-indexable value (no metamethods): a
table yields its raw field, anything else aborts with the engine's
"attempt to index" runtime error payload. -/
def gettable_plain : CalleeSem := fun f args =>
  match f, args with
  | .cfunction 1, [t, k] =>
      match t with
      | .table fields =>
          match asKey k with
          | some key => .ok [lua_rawget fields key]
          | none => .ok [.nil]
      | v => .abort (.str ("attempt to index a " ++ luaTypeName v ++ " value"))
  | _, _ => .abort (.str "attempt to call a non-function value")

/-- `pgettable` (`protected.rs` lines 9-24): protected `lua_gettable`.  The
caller has the key on top of the stack and the table at `index`; on
success the key is replaced by the fetched value and its type tag is
returned; on failure the decoded error is returned with the key consumed
and the payload popped. -/
def pgettable (sem : CalleeSem) (tb : String) (s : Stack) (index : ℤ) :
    HostOutcome ℤ × Stack :=
  let table_index := lua_absindex s index
  let s1 : Stack := .cfunction gettable_tag :: s
  let s2 := lua_pushvalue s1 table_index
  let s3 := lua_pushvalue s2 (-3)
  let s4 := lua_remove s3 (-4)
  match handle_error (pcall_with_traceback sem tb s4 2 (some 1)) with
  | (.ok _, s5) => (.ok (lua_type (stackGet s5 (-1))), s5)
  | (.err e, s5) => (.err e, s5)
  | (.panicked, s5) => (.panicked, s5)

/-! ## `Function::call` (`function.rs` lines 62-90)

The generic conversion bounds `A: ToLuaMulti` / `R: FromLuaMulti` are
instantiated at multi-values, so `args` is the already-converted argument
list and the result is the multi-value result list (`MultiValue` is built
by `push_front`, so results come back in call order). -/

def error_traceback_tag : ℕ := 0

/-- `Function::call`: under the stack guard with declared change 0, push
the traceback handler, the function, and the arguments; `lua_pcall` with
`LUA_MULTRET` and the handler as message handler; on success pop all
results (front-pushed into a `MultiValue`) and then the handler; on
failure return the decoded error. -/
def function_call (sem : CalleeSem) (tb : String) (fref : LuaValue)
    (args : List LuaValue) (s : Stack) : HostOutcome (List LuaValue) × Stack :=
  stack_err_guard 0 s fun s0 =>
    let nargs := args.length
    let s1 : Stack := .cfunction error_traceback_tag :: s0
    let stack_start := lua_gettop s1
    let s2 := fref :: s1
    let s3 := args.reverse ++ s2
    match lua_pcall sem (error_traceback tb) s3 nargs none with
    | .ok s4 =>
        let nresults := lua_gettop s4 - stack_start
        let results := (s4.take nresults).reverse
        let s5 := lua_pop (s4.drop nresults) 1
        (.ok results, s5)
    | .err s4 =>
        match pop_error s4 with
        | (.err e, s5) => (.err e, s5)
        | (.panicked, s5) => (.panicked, s5)

/-! ## Host-callback re-entrancy (Protected Call Layer, re-entrancy rule)

The callback registration machinery lives in the repository's `lua.rs`,
which is not under `src/`; it is modelled from the spec's re-entrancy rule:
a registration holds its FnMut closure behind a run-time flag (the RefCell
around the closure), an invocation first tries to take the mutable borrow,
and an invocation arriving while the registration is already executing is
refused with `RecursiveCallbackError` instead of handing out a second
mutable handle to the captured state. -/

/-- A host-closure body, abstracted to the actions that matter for
re-entrancy: finish, or call back into the engine in a way that re-enters
the same registration (running `inner` if the engine were to let it
through) and then continue with `rest`. -/
inductive CbBody where
  | finish
  | selfCall (inner : CbBody) (rest : CbBody)

mutual

/-- Modelled from the spec: invoking a registration.  `executing` is the
registration's borrow flag; `n` counts the mutable borrows of the captured
state currently outstanding.  Returns the invocation's result and the peak
number of simultaneously outstanding mutable borrows. -/
def invoke_registration : Bool → ℕ → CbBody → Except Error Unit × ℕ
  | true, n, _ => (.error .RecursiveCallbackError, n)
  | false, n, body => run_callback_body (n + 1) body
termination_by ex n body => (sizeOf body, 1)

/-- Modelled from the spec: running a closure body whose registration is
currently executing (so its flag is set); `n` mutable borrows are
outstanding, including the body's own. -/
def run_callback_body : ℕ → CbBody → Except Error Unit × ℕ
  | n, .finish => (.ok (), n)
  | n, .selfCall inner rest =>
      let r1 := invoke_registration true n inner
      let r2 := run_callback_body n rest
      (r2.1, max r1.2 r2.2)
termination_by n body => (sizeOf body, 0)

end

/-! ## Host panics crossing the bridge (`macros.rs`, Protected Call Layer)

`lua_panic` is transcribed from `macros.rs`: it clears the engine's value
stack (`lua_settop(state, 0)`) before raising the host fault, so an outer
supervisor that catches the fault does not see a stack-corrupted engine.
The safe `pcall`/`xpcall` wrappers the bridge installs live in the
repository's `lua.rs`, not under `src/`, and are modelled from the spec:
they catch engine aborts but re-raise a travelling host panic payload. -/

/-- `lua_panic` (`macros.rs` lines 7-22): clear the stack, then panic. -/
def lua_panic {α : Type} (s : Stack) : HostOutcome α × Stack :=
  (.panicked, lua_settop s 0)

/-- Modelled from the spec: the `pcall` the bridge exposes to scripts.  A
normal abort is caught and returned as `(false, payload)`; a success is
`(true, results...)`; a travelling host panic is re-raised, never caught. -/
def safe_pcall (inner : CallOutcome) : CallOutcome :=
  match inner with
  | .ok rs => .ok (.boolean true :: rs)
  | .abort .wrappedPanic => .abort .wrappedPanic
  | .abort e => .ok [.boolean false, e]

/-- Modelled from the spec: the `xpcall` the bridge exposes to scripts.
Like `safe_pcall`, but a caught abort payload is first passed to the
handler; a travelling host panic is re-raised without ever invoking the
handler. -/
def safe_xpcall (handler : LuaValue → LuaValue) (inner : CallOutcome) : CallOutcome :=
  match inner with
  | .ok rs => .ok (.boolean true :: rs)
  | .abort .wrappedPanic => .abort .wrappedPanic
  | .abort e => .ok [.boolean false, handler e]

/-! ## Coroutines (`Thread`)

`Thread::resume` lives in the repository's `thread.rs`, not under `src/`;
the resumption protocol is modelled from the spec: a suspended unit is
resumed with a value and either yields a value back, returns for good, or
errors; resuming a unit that has returned or errored fails with
`CoroutineInactive` on that and every subsequent attempt.  The accumulating
coroutine body is transcribed from the Lua chunk of `test_thread`
(`src/src/tests.rs` lines 370-379). -/

/-- One step of a coroutine body: yield a value from a new suspension
point, return a final value, or raise an error. -/
inductive StepResult (σ : Type) where
  | yield (next : σ) (v : ℤ)
  | ret (v : ℤ)
  | fail (e : Error)

/-- The life state of a coroutine: suspended at `σ`, finished (main
function returned), or dead from an error. -/
inductive ThreadState (σ : Type) where
  | active (st : σ)
  | finished
  | errored
deriving DecidableEq

/-- `ThreadStatus`, as the bridge reports it. -/
inductive ThreadStatus where
  | Resumable
  | Unresumable
  | Error
deriving DecidableEq

def thread_status {σ : Type} : ThreadState σ → ThreadStatus
  | .active _ => .Resumable
  | .finished => .Unresumable
  | .errored => .Error

/-- Modelled from the spec: `Thread::resume`.  An inactive unit (finished
or errored) fails with `CoroutineInactive` and stays inactive; an active
unit takes one step of its body. -/
def thread_resume {σ : Type} (step : σ → ℤ → StepResult σ) :
    ThreadState σ → ℤ → ThreadState σ × Except Error ℤ
  | .active st, arg =>
      match step st arg with
      | .yield next v => (.active next, .ok v)
      | .ret v => (.finished, .ok v)
      | .fail e => (.errored, .error e)
  | .finished, _ => (.finished, .error .CoroutineInactive)
  | .errored, _ => (.errored, .error .CoroutineInactive)

/-- Resume a coroutine once per argument, front to back, collecting each
resume's outcome. -/
def run_resumes {σ : Type} (step : σ → ℤ → StepResult σ) :
    ThreadState σ → List ℤ → List (Except Error ℤ) × ThreadState σ
  | st, [] => ([], st)
  | st, a :: as =>
      let r := thread_resume step st a
      let rs := run_resumes step r.1 as
      (r.2 :: rs.1, rs.2)

/-- The suspension points of the accumulating coroutine of `test_thread`:
not yet started, or suspended at the yield of loop iteration `i` with
accumulator `sum`. -/
inductive AccumState where
  | start
  | loopAt (i : ℕ) (sum : ℤ)
deriving DecidableEq

/-- The accumulating coroutine body from `test_thread` (`tests.rs`):
`function (s) local sum = s; for i = 1,4 do sum = sum + yield(sum) end;
return sum end`.  The first resume binds `sum` and suspends at the first
yield; each later resume adds the resumed value and either suspends at the
next yield or returns the final sum. -/
def accumStep : AccumState → ℤ → StepResult AccumState
  | .start, s => if 1 ≤ 4 then .yield (.loopAt 1 s) s else .ret s
  | .loopAt i sum, arg =>
      let sum' := sum + arg
      if i + 1 ≤ 4 then .yield (.loopAt (i + 1) sum') sum' else .ret sum'

/-! ## The Foreign Value Cell (userdata borrow tracking)

The borrow cell lives in the repository's `userdata.rs`/`lua.rs`, which
are not under `src/`; it is modelled from the spec's Foreign Value Cell
contract, with the error variants taken from `error.rs`. -/

/-- The borrow-state flag of a Foreign Value Cell. -/
inductive BorrowState where
  | Free
  | SharedCount (n : ℕ)
  | Exclusive
deriving DecidableEq, Repr

/-- Modelled from the spec: a Foreign Value Cell — host data boxed inside
engine-managed memory, with a borrow-state flag and an alive flag; the
payload is dropped (gone, not merely hidden) once the destroy hook has
run. -/
structure UserDataCell (α : Type) where
  borrow_state : BorrowState
  alive : Bool
  payload : Option α
deriving DecidableEq

/-- A freshly created live cell. -/
def mk_cell {α : Type} (v : α) : UserDataCell α :=
  { borrow_state := .Free, alive := true, payload := some v }

/-- Modelled from the spec: the destroy hook run by the collector — the
cell transitions to "not alive" and the enclosed host data is dropped.
The engine-heap slot itself may stay reachable (resurrection). -/
def destroy_cell {α : Type} (c : UserDataCell α) : UserDataCell α :=
  { borrow_state := .Free, alive := false, payload := none }

/-- Modelled from the spec: `borrow_shared()`.  Fails with
`ExpiredUserData` on a destroyed cell, succeeds from `Free` or
`SharedCount(n)`, and fails with `UserDataBorrowError` while an exclusive
borrow is outstanding.  Never blocks: it returns immediately. -/
def borrow_shared {α : Type} (c : UserDataCell α) :
    Except Error (α × UserDataCell α) :=
  if ¬ c.alive then .error .ExpiredUserData
  else
    match c.payload with
    | none => .error .ExpiredUserData
    | some v =>
        match c.borrow_state with
        | .Free => .ok (v, { c with borrow_state := .SharedCount 1 })
        | .SharedCount n => .ok (v, { c with borrow_state := .SharedCount (n + 1) })
        | .Exclusive => .error .UserDataBorrowError

/-- Modelled from the spec: `borrow_exclusive()`.  Fails with
`ExpiredUserData` on a destroyed cell, succeeds only from `Free`, and
fails with `UserDataBorrowMutError` while any borrow is outstanding.
Never blocks: it returns immediately. -/
def borrow_exclusive {α : Type} (c : UserDataCell α) :
    Except Error (α × UserDataCell α) :=
  if ¬ c.alive then .error .ExpiredUserData
  else
    match c.payload with
    | none => .error .ExpiredUserData
    | some v =>
        match c.borrow_state with
        | .Free => .ok (v, { c with borrow_state := .Exclusive })
        | _ => .error .UserDataBorrowMutError

/-- Modelled from the spec: `release_shared()` — the last shared holder
restores `Free`. -/
def release_shared {α : Type} (c : UserDataCell α) : UserDataCell α :=
  match c.borrow_state with
  | .SharedCount 1 => { c with borrow_state := .Free }
  | .SharedCount (n + 1) => { c with borrow_state := .SharedCount n }
  | st => { c with borrow_state := st }

/-- Modelled from the spec: `release_exclusive()` — restores `Free`. -/
def release_exclusive {α : Type} (c : UserDataCell α) : UserDataCell α :=
  { c with borrow_state := .Free }

/-- Take `k` further shared borrows in a row, keeping only the final cell
state (the values read are all the same payload). -/
def borrow_shared_iter {α : Type} (k : ℕ) (c : UserDataCell α) :
    Except Error (UserDataCell α) :=
  match k with
  | 0 => .ok c
  | k + 1 =>
      match borrow_shared c with
      | .ok (_, c') => borrow_shared_iter k c'
      | .error e => .error e

/-- An engine-side registry slot table for cells, keyed by opaque ids: the
vehicle for "resurrected alias" accesses — a destroyed cell's slot stays
reachable under every id that maps to it. -/
abbrev UDRegistry (α : Type) := List (ℕ × UserDataCell α)

def registry_get {α : Type} (reg : UDRegistry α) (id : ℕ) :
    Option (UserDataCell α) :=
  (reg.find? (fun p => p.1 == id)).map (fun p => p.2)

/-- Run the destroy hook on the cell at `id`; the slot stays in the
registry (the destroy hook may have created fresh aliases to it). -/
def registry_destroy {α : Type} : UDRegistry α → ℕ → UDRegistry α
  | [], _ => []
  | (i, c) :: ps, id =>
      (if i = id then (i, destroy_cell c) else (i, c)) :: registry_destroy ps id

/-- Access the cell behind a handle with a shared borrow. -/
def registry_borrow_shared {α : Type} (reg : UDRegistry α) (id : ℕ) :
    Except Error α :=
  match registry_get reg id with
  | none => .error .UserDataTypeMismatch
  | some c =>
      match borrow_shared c with
      | .ok (v, _) => .ok v
      | .error e => .error e

/-- Access the cell behind a handle with an exclusive borrow. -/
def registry_borrow_exclusive {α : Type} (reg : UDRegistry α) (id : ℕ) :
    Except Error α :=
  match registry_get reg id with
  | none => .error .UserDataTypeMismatch
  | some c =>
      match borrow_exclusive c with
      | .ok (v, _) => .ok v
      | .error e => .error e

/-! ## Numeric conversion (Conversion Protocol)

The conversion code lives in the repository's `conversion.rs`/`lua.rs`,
not under `src/`; it is modelled from the spec's Conversion Protocol
contract (the engine's native coercion rules), with `test_coercion` and
`test_num_conversion` (`src/src/tests.rs`) fixing the concrete behaviour:
a string holding a valid number literal converts to a numeric host type;
a non-integral numeric value is rejected for an integer host type. -/

/-- Parse a run of decimal digits. -/
def digitsVal : List Char → Option ℕ
  | [] => none
  | cs => cs.foldl (fun acc c => do
      let a ← acc
      if c.isDigit then some (a * 10 + (c.toNat - '0'.toNat)) else none)
    (some 0)

/-- Split a character list at the first dot. -/
def splitAtDot : List Char → List Char × Option (List Char)
  | [] => ([], none)
  | c :: cs =>
      if c = '.' then ([], some cs)
      else
        let r := splitAtDot cs
        (c :: r.1, r.2)

/-- Modelled from the spec: the engine's string-to-number coercion on
plain decimal literals.  A literal without a dot becomes an engine
integer; a literal with a dot becomes an engine float with the exact
decimal value. -/
def parseLuaNumber (s : String) : Option LuaValue :=
  match splitAtDot s.data with
  | (intPart, none) => (digitsVal intPart).map (fun n => .integer (n : ℤ))
  | (intPart, some fracPart) => do
      let i ← digitsVal intPart
      let f ← digitsVal fracPart
      some (.number (.finite (mkRat (i * 10 ^ fracPart.length + f) (10 ^ fracPart.length))))

/-- An engine number viewed as an exact integer, when it is one. -/
def numAsInteger : LuaValue → Option ℤ
  | .integer n => some n
  | .number (.finite q) => if q.den = 1 then some q.num else none
  | _ => none

/-- Modelled from the spec: `lua_tointegerx` — the engine's coercion of a
value to an integer: integers pass through, floats convert exactly or not
at all (infinities and fractional values are rejected, never rounded or
truncated), and strings are first coerced through the number parser. -/
def lua_tointegerx : LuaValue → Option ℤ
  | .str s => (parseLuaNumber s).bind numAsInteger
  | v => numAsInteger v

/-- An engine value viewed as a float. -/
def numAsFloat : LuaValue → Option LuaFloat
  | .integer n => some (.finite (n : ℚ))
  | .number x => some x
  | _ => none

/-- Modelled from the spec: `lua_tonumberx` — the engine's coercion of a
value to a float, coercing number-literal strings. -/
def lua_tonumberx : LuaValue → Option LuaFloat
  | .str s => (parseLuaNumber s).bind numAsFloat
  | v => numAsFloat v

/-- Modelled from the spec: `FromLua` for the host integer type `i64` —
a failed engine coercion surfaces as `FromLuaConversionError` carrying the
source and destination type names. -/
def from_lua_i64 (v : LuaValue) : Except Error ℤ :=
  match lua_tointegerx v with
  | some n => .ok n
  | none => .error (.FromLuaConversionError (luaTypeName v) "i64" none)

/-- Modelled from the spec: `FromLua` for the host float type `f64`. -/
def from_lua_f64 (v : LuaValue) : Except Error LuaFloat :=
  match lua_tonumberx v with
  | some x => .ok x
  | none => .error (.FromLuaConversionError (luaTypeName v) "f64" none)

/-! ## `Function::bind` (`function.rs` lines 123-164)

`bind_call_impl` runs inside a fresh C-function frame whose slots hold
exactly the call-time arguments (slot 1 is the frame's bottom).  Frames
are modelled bottom-first (`List.get 0` is slot 1), which makes the
`lua_settop` / `lua_rotate` / `lua_replace` sequence of the source
directly expressible. -/

/-- A C-function call frame, bottom slot first. -/
abbrev Frame := List LuaValue

/-- `lua_settop` inside a frame (bottom-first order): truncate to `n`
slots or extend with `nil`s. -/
def frame_settop (f : Frame) (n : ℕ) : Frame :=
  if n ≤ f.length then f.take n
  else f ++ List.replicate (n - f.length) .nil

/-- `lua_rotate(state, -(len), n)` on the whole frame: the `n` top slots
move below the rest, in order. -/
def frame_rotate_whole (f : Frame) (n : ℕ) : Frame :=
  f.drop (f.length - n) ++ f.take (f.length - n)

/-- `lua_replace` of slot `pos` (0-based) in a frame. -/
def frame_replace (f : Frame) (pos : ℕ) (v : LuaValue) : Frame :=
  f.set pos v

/-- The loop `for i in 0..nbinds { pushvalue(upvalue(i+3)); replace(i+2) }`
of `bind_call_impl`: write the bound arguments into consecutive slots
starting at `pos`. -/
def fill_binds (f : Frame) (binds : List LuaValue) (pos : ℕ) : Frame :=
  match binds with
  | [] => f
  | b :: bs => fill_binds (frame_replace f pos b) bs (pos + 1)

/-- `bind_call_impl` (`function.rs` lines 124-142): the trampoline of a
bound function.  Its upvalues are the target function (`func`), the bind
count, and the bound arguments (`binds`); the frame holds the call-time
arguments.  It extends the frame, rotates the padding below the
arguments, writes the function into slot 1 and the bound arguments into
slots 2..nbinds+1, and calls slot 1 with everything above it.  Returns
the called function and the argument list handed to `lua_call`. -/
def bind_call_impl (func : LuaValue) (binds : List LuaValue) (frame : Frame) :
    LuaValue × List LuaValue :=
  let nargs := frame.length
  let nbinds := binds.length
  let f1 := frame_settop frame (nargs + nbinds + 1)
  let f2 := frame_rotate_whole f1 (nbinds + 1)
  let f3 := frame_replace f2 0 func
  let f4 := fill_binds f3 binds 1
  (f4.headD .nil, f4.drop 1)

/-- The callables reachable by stacking `Function::bind`: a base behaviour,
or a bound wrapper created by `bind` around an inner callable with a list
of bound arguments.  `Function::bind` of the source builds exactly this
closure: upvalue 1 is the inner function, upvalues 3.. are the binds. -/
inductive Callable where
  | base (g : List LuaValue → CallOutcome)
  | bound (inner : Callable) (binds : List LuaValue)

/-- Run a callable on the arguments of a fresh frame: a bound wrapper runs
`bind_call_impl` and forwards to its inner callable (the value in the
function slot is the wrapper's first upvalue). -/
def runCallable : Callable → List LuaValue → CallOutcome
  | .base g, args => g args
  | .bound inner binds, frame =>
      runCallable inner (bind_call_impl (.cfunction 2) binds frame).2

/-! ## Multi-value to host-tuple conversion (Conversion Protocol)

The `FromLuaMulti` instances live in the repository's `multi.rs`, not
under `src/`; they are modelled from the spec's multi-value contract with
`test_lua_multi` (`src/src/tests.rs`) fixing the concrete behaviour:
tuple positions consume the multi-value front to back (a missing value is
read as `nil`), surplus values are discarded, and a trailing `Variadic`
position captures all values not yet claimed, in their original order. -/

/-- Modelled from the spec: `FromLuaMulti` for a two-position host tuple:
each position converts the front value and consumes it; whatever remains
is dropped. -/
def from_lua_multi_pair {α β : Type} (fa : LuaValue → Except Error α)
    (fb : LuaValue → Except Error β) (vs : List LuaValue) :
    Except Error (α × β) := do
  let a ← fa (vs.headD .nil)
  let b ← fb ((vs.drop 1).headD .nil)
  return (a, b)

/-- Modelled from the spec: `FromLuaMulti` for a tuple whose last position
is `Variadic`: the leading positions consume front values, the variadic
tail converts every remaining value in order. -/
def from_lua_multi_pair_variadic {α β γ : Type} (fa : LuaValue → Except Error α)
    (fb : LuaValue → Except Error β) (fc : LuaValue → Except Error γ)
    (vs : List LuaValue) : Except Error (α × β × List γ) := do
  let a ← fa (vs.headD .nil)
  let b ← fb ((vs.drop 1).headD .nil)
  let cs ← (vs.drop 2).mapM fc
  return (a, b, cs)

/-! ## Theorems -/

/-- Closed-form behaviour of `pgettable` on the canonical caller layout
(key on top, table just below, index `-2`), for every callee behaviour. -/
theorem pgettable_general (sem : CalleeSem) (tb : String) (k tv : LuaValue)
    (rest : Stack) :
    pgettable sem tb (k :: tv :: rest) (-2) =
      (match sem (.cfunction gettable_tag) [tv, k] with
       | .ok rs => (.ok (lua_type ((adjustResults rs 1).headD .nil)),
                    (adjustResults rs 1).headD .nil :: tv :: rest)
       | .abort .wrappedPanic => (.panicked, [])
       | .abort e => (.err (pop_error_decode (error_traceback tb e)), tv :: rest)) := by
  have habs : lua_absindex (k :: tv :: rest) (-2) = (rest.length : ℤ) + 1 := by
    simp [lua_absindex]
    ring
  have hget : stackGet (.cfunction gettable_tag :: k :: tv :: rest)
      ((rest.length : ℤ) + 1) = tv := by
    have h1 : ¬ ((rest.length : ℤ) + 1 < 0) := by omega
    have h2 : ((rest.length : ℤ) + 1).toNat = rest.length + 1 := by omega
    simp [stackGet, h1, h2, List.getD]
  have hadj : ∀ rs : List LuaValue, adjustResults rs 1 = [rs.headD .nil] := by
    intro rs
    cases rs <;> simp [adjustResults]
  have hget2 : stackGet (tv :: .cfunction gettable_tag :: k :: tv :: rest) (-3) = k := by
    simp [stackGet, List.getD]
  have herase : lua_remove (k :: tv :: .cfunction gettable_tag :: k :: tv :: rest) (-4) =
      k :: tv :: .cfunction gettable_tag :: tv :: rest := by
    simp [lua_remove, List.eraseIdx]
  simp only [pgettable, habs, lua_pushvalue, hget, hget2, herase, pcall_with_traceback,
    lua_pcall, handle_error, pop_error, hadj]
  rcases h : sem (.cfunction gettable_tag) [tv, k] with rs | e
  · simp [h, hadj, stackGet, List.getD]
  · cases e <;> simp [h, error_traceback, pop_error_decode]

/-- Closed-form behaviour of `Function::call`, for every callee behaviour:
on success all the callee's results come back in order and the stack is
exactly restored; on an abort the decoded error is returned with the
stack exactly restored; a host panic is re-raised with the stack
neutralized. -/
theorem function_call_general (sem : CalleeSem) (tb : String) (fref : LuaValue)
    (args : List LuaValue) (s : Stack) :
    function_call sem tb fref args s =
      (match sem fref args with
       | .ok rs => (.ok rs, s)
       | .abort .wrappedPanic => (.panicked, [])
       | .abort e => (.err (pop_error_decode (error_traceback tb e)), s)) := by
  have hf : (args.reverse ++ fref :: .cfunction error_traceback_tag :: s).getD args.length .nil
      = fref := by
    rw [List.getD_eq_getElem?_getD, List.getElem?_append_right (by simp)]
    simp
  have htake : (args.reverse ++ fref :: .cfunction error_traceback_tag :: s).take args.length
      = args.reverse := by
    rw [show args.length = args.reverse.length by simp, List.take_left]
  have hdrop : (args.reverse ++ fref :: .cfunction error_traceback_tag :: s).drop (args.length + 1)
      = .cfunction error_traceback_tag :: s := by
    rw [show args.reverse ++ fref :: LuaValue.cfunction error_traceback_tag :: s
          = (args.reverse ++ [fref]) ++ LuaValue.cfunction error_traceback_tag :: s by simp,
        show args.length + 1 = (args.reverse ++ [fref]).length by simp,
        List.drop_left]
  simp only [function_call, stack_err_guard, lua_pcall, hf, htake, hdrop, List.reverse_reverse]
  rcases h : sem fref args with rs | e
  · have hlen : lua_gettop (rs.reverse ++ .cfunction error_traceback_tag :: s)
        - lua_gettop (LuaValue.cfunction error_traceback_tag :: s) = rs.length := by
      simp [lua_gettop]
    have htake2 : (rs.reverse ++ .cfunction error_traceback_tag :: s).take rs.length
        = rs.reverse := by
      rw [show rs.length = rs.reverse.length by simp, List.take_left]
    have hdrop2 : (rs.reverse ++ .cfunction error_traceback_tag :: s).drop rs.length
        = .cfunction error_traceback_tag :: s := by
      rw [show rs.length = rs.reverse.length by simp, List.drop_left]
    simp [h, hlen, htake2, hdrop2, lua_pop, lua_gettop, lua_settop]
  · cases e <;>
      simp [h, error_traceback, pop_error, pop_error_decode, lua_gettop, lua_settop]

/-- C1: for every protected call made through the bridge's primitives, the
stack height after the call equals the height before plus the operation's
declared net result count, and when the call aborts with an error no
extra values are left on the stack: `Function::call` (declared change 0)
returns the stack exactly as it was in both the success and the error
case, and `pgettable` (net declared effect 0: the key is replaced by the
fetched value) ends at the original height on success and, on an error,
at exactly the base stack with the consumed key removed and nothing else
left behind. -/
theorem protected_call_stack_discipline :
    (∀ (sem : CalleeSem) (tb : String) (fref : LuaValue) (args : List LuaValue) (s : Stack),
      (function_call sem tb fref args s).2 =
        match (function_call sem tb fref args s).1 with
        | .ok _ => s
        | .err _ => s
        | .panicked => []) ∧
    (∀ (sem : CalleeSem) (tb : String) (k tv : LuaValue) (rest : Stack),
      (pgettable sem tb (k :: tv :: rest) (-2)).2.length =
        match (pgettable sem tb (k :: tv :: rest) (-2)).1 with
        | .ok _ => (k :: tv :: rest).length
        | .err _ => (k :: tv :: rest).length - 1
        | .panicked => 0) ∧
    (∀ (sem : CalleeSem) (tb : String) (k tv : LuaValue) (rest : Stack),
      match (pgettable sem tb (k :: tv :: rest) (-2)).1 with
      | .err _ => (pgettable sem tb (k :: tv :: rest) (-2)).2 = tv :: rest
      | _ => True) := by
  refine ⟨?_, ?_, ?_⟩
  · intro sem tb fref args s
    rw [function_call_general]
    rcases h : sem fref args with rs | e
    · simp
    · cases e <;> simp
  · intro sem tb k tv rest
    rw [pgettable_general]
    rcases h : sem (.cfunction gettable_tag) [tv, k] with rs | e
    · simp
    · cases e <;> simp
  · intro sem tb k tv rest
    rw [pgettable_general]
    rcases h : sem (.cfunction gettable_tag) [tv, k] with rs | e
    · simp
    · cases e <;> simp

/-- C2: every primitive that can trigger an engine-side abort returns a
typed `Error` value to the host instead of aborting the host process, and
the abort payload decodes into exactly one variant of the closed
taxonomy: a recognized collector-error marker string becomes
`GarbageCollectorError`, a wrapped host error object becomes
`CallbackError` carrying the traceback and the original cause, and any
other payload becomes `RuntimeError` with the stringified payload. -/
theorem abort_payload_decoding :
    (∀ m : String, matches_gc_marker m = true →
        pop_error_decode (.str m) = .GarbageCollectorError m) ∧
    (∀ m : String, matches_gc_marker m = false →
        pop_error_decode (.str m) = .RuntimeError m) ∧
    (∀ (tb : String) (cause : Error),
        pop_error_decode (error_traceback tb (.wrappedError cause)) =
          .CallbackError tb cause) ∧
    (∀ (tb : String) (fref : LuaValue) (args : List LuaValue) (s : Stack)
        (e : LuaValue), e ≠ .wrappedPanic →
        ∃ er : Error, (function_call (fun _ _ => .abort e) tb fref args s).1 = .err er) := by
  refine ⟨?_, ?_, ?_, ?_⟩
  · intro m h
    simp [pop_error_decode, h]
  · intro m h
    simp [pop_error_decode, h]
  · intro tb cause
    simp [error_traceback, pop_error_decode]
  · intro tb fref args s e he
    rw [function_call_general]
    cases e <;> simp_all

/-- Witness for C2 at concrete inputs: a marker string, a non-marker
string, a wrapped host error, and a primitive aborting with a plain
string payload. -/
theorem abort_payload_decoding_witness :
    (matches_gc_marker "error in __gc metamethod" = true ∧
      pop_error_decode (.str "error in __gc metamethod") =
        .GarbageCollectorError "error in __gc metamethod") ∧
    (matches_gc_marker "attempt to index a nil value" = false ∧
      pop_error_decode (.str "attempt to index a nil value") =
        .RuntimeError "attempt to index a nil value") ∧
    (pop_error_decode (error_traceback "TB" (.wrappedError (.ExternalError "boom"))) =
      .CallbackError "TB" (.ExternalError "boom")) ∧
    ((LuaValue.str "oops") ≠ .wrappedPanic ∧
      ∃ er : Error,
        (function_call (fun _ _ => .abort (.str "oops")) "TB" (.luafunction 1)
          [.integer 1] [.boolean true]).1 = .err er) :=
  ⟨⟨by decide, abort_payload_decoding.1 _ (by decide)⟩,
   ⟨by decide, abort_payload_decoding.2.1 _ (by decide)⟩,
   abort_payload_decoding.2.2.1 "TB" (.ExternalError "boom"),
   ⟨by simp, abort_payload_decoding.2.2.2 "TB" (.luafunction 1) [.integer 1]
      [.boolean true] (.str "oops") (by simp)⟩⟩

/-- C3: an invocation of a host-closure registration that is already
executing fails with the dedicated `RecursiveCallbackError` instead of
handing out a second mutable handle, and no execution ever holds more
than one mutable borrow of the captured state at once. -/
theorem recursive_callback_refused :
    (∀ (n : ℕ) (body : CbBody),
        invoke_registration true n body = (.error .RecursiveCallbackError, n)) ∧
    (∀ body : CbBody, (invoke_registration false 0 body).2 ≤ 1) := by
  have hpeak : ∀ (body : CbBody) (n : ℕ), (run_callback_body n body).2 = n := by
    intro body
    induction body with
    | finish => intro n; simp [run_callback_body]
    | selfCall inner rest ihi ihr =>
        intro n
        simp [run_callback_body, invoke_registration, ihr]
  refine ⟨?_, ?_⟩
  · intro n body
    simp [invoke_registration]
  · intro body
    simp [invoke_registration, hpeak]

/-- C4: a host panic raised inside a host closure while engine code runs
is re-raised to the host — the engine-level `pcall`/`xpcall` cannot catch
it — and before it propagates the engine's value stack is cleared, so an
outer supervisor catching the fault does not see a stack-corrupted
engine; `lua_panic` of `macros.rs` likewise clears the stack before
raising the fault. -/
theorem host_panic_neutralizes_stack :
    (safe_pcall (.abort .wrappedPanic) = .abort .wrappedPanic) ∧
    (∀ handler, safe_xpcall handler (.abort .wrappedPanic) = .abort .wrappedPanic) ∧
    (∀ (tb : String) (fref : LuaValue) (args : List LuaValue) (s : Stack),
        function_call (fun _ _ => safe_pcall (.abort .wrappedPanic)) tb fref args s =
          (.panicked, [])) ∧
    (∀ (tb : String) (fref : LuaValue) (args : List LuaValue) (s : Stack) handler,
        function_call (fun _ _ => safe_xpcall handler (.abort .wrappedPanic)) tb fref args s =
          (.panicked, [])) ∧
    (∀ s : Stack, (lua_panic s : HostOutcome Unit × Stack) = (.panicked, [])) := by
  refine ⟨rfl, fun _ => rfl, ?_, ?_, ?_⟩
  · intro tb fref args s
    rw [function_call_general]
    rfl
  · intro tb fref args s handler
    rw [function_call_general]
    rfl
  · intro s
    simp [lua_panic, lua_settop]

/-- C5: the accumulating coroutine of `test_thread`, resumed with
0, 1, 2, 3, 4, yields 0, 1, 3, 6, 10 across the five resumes and then
finishes; and a coroutine that has returned — or died from an error —
fails with `CoroutineInactive` on every subsequent resume attempt, the
sixth and all later ones included, while staying inactive. -/
theorem coroutine_accumulator_then_inactive :
    (run_resumes accumStep (.active .start) [0, 1, 2, 3, 4] =
      ([.ok 0, .ok 1, .ok 3, .ok 6, .ok 10], .finished)) ∧
    (∀ (σ : Type) (step : σ → ℤ → StepResult σ) (inputs : List ℤ),
        run_resumes step .finished inputs =
          (inputs.map (fun _ => .error .CoroutineInactive), .finished)) ∧
    (∀ (σ : Type) (step : σ → ℤ → StepResult σ) (inputs : List ℤ),
        run_resumes step .errored inputs =
          (inputs.map (fun _ => .error .CoroutineInactive), .errored)) := by
  refine ⟨by rfl, ?_, ?_⟩
  · intro σ step inputs
    induction inputs with
    | nil => simp [run_resumes]
    | cons a as ih => simp [run_resumes, thread_resume, ih]
  · intro σ step inputs
    induction inputs with
    | nil => simp [run_resumes]
    | cons a as ih => simp [run_resumes, thread_resume, ih]

/-- C6: once a Foreign Value Cell's destroy hook has run, every borrow
attempt fails with `ExpiredUserData` — including an access through a
still-reachable registry alias to the destroyed slot (a resurrected
reference) — and the cell holds no payload any more, so no access can
dereference the dropped host data. -/
theorem expired_userdata_rejected :
    (∀ (α : Type) (c : UserDataCell α),
        borrow_shared (destroy_cell c) = .error .ExpiredUserData ∧
        borrow_exclusive (destroy_cell c) = .error .ExpiredUserData ∧
        (destroy_cell c).payload = none) ∧
    (∀ (α : Type) (reg : UDRegistry α) (id : ℕ) (c : UserDataCell α),
        registry_get reg id = some c →
        registry_borrow_shared (registry_destroy reg id) id = .error .ExpiredUserData ∧
        registry_borrow_exclusive (registry_destroy reg id) id = .error .ExpiredUserData) := by
  have hmap : ∀ (α : Type) (reg : UDRegistry α) (id : ℕ),
      registry_get (registry_destroy reg id) id =
        (registry_get reg id).map destroy_cell := by
    intro α reg id
    induction reg with
    | nil => simp [registry_get, registry_destroy]
    | cons p ps ih =>
        rcases p with ⟨i, cell⟩
        by_cases h : i = id
        · subst h
          simp [registry_get, registry_destroy, List.find?_cons]
        · simp only [registry_destroy, if_neg h]
          simpa [registry_get, List.find?_cons, h] using ih
  refine ⟨?_, ?_⟩
  · intro α c
    refine ⟨?_, ?_, rfl⟩ <;> simp [borrow_shared, borrow_exclusive, destroy_cell]
  · intro α reg id c hc
    constructor
    · simp only [registry_borrow_shared, hmap, hc]
      simp [borrow_shared, destroy_cell]
    · simp only [registry_borrow_exclusive, hmap, hc]
      simp [borrow_exclusive, destroy_cell]

/-- Witness for C6 at a concrete registry: one slot holding a live cell,
destroyed and then accessed through the surviving alias. -/
theorem expired_userdata_rejected_witness :
    registry_get [(0, mk_cell (5 : ℤ))] 0 = some (mk_cell (5 : ℤ)) ∧
    (registry_borrow_shared (registry_destroy [(0, mk_cell (5 : ℤ))] 0) 0 =
        .error .ExpiredUserData ∧
      registry_borrow_exclusive (registry_destroy [(0, mk_cell (5 : ℤ))] 0) 0 =
        .error .ExpiredUserData) :=
  ⟨by decide,
   expired_userdata_rejected.2 ℤ [(0, mk_cell 5)] 0 (mk_cell 5) (by decide)⟩

/-- C7: the borrow state machine of a live Foreign Value Cell: shared
borrows succeed from `Free` and from `SharedCount(n)` (so any number of
shared borrows in a row succeed, counting up), an exclusive borrow
succeeds only from `Free`, and every borrow attempt made while an
exclusive borrow is outstanding fails immediately — never blocking — with
the borrow-conflict error of its mode (`UserDataBorrowError` for shared,
`UserDataBorrowMutError` for exclusive). -/
theorem borrow_state_machine :
    (∀ (α : Type) (v : α),
        borrow_shared (⟨.Free, true, some v⟩ : UserDataCell α) =
          .ok (v, ⟨.SharedCount 1, true, some v⟩)) ∧
    (∀ (α : Type) (v : α) (n : ℕ),
        borrow_shared (⟨.SharedCount n, true, some v⟩ : UserDataCell α) =
          .ok (v, ⟨.SharedCount (n + 1), true, some v⟩)) ∧
    (∀ (α : Type) (v : α) (k : ℕ),
        borrow_shared_iter (k + 1) (⟨.Free, true, some v⟩ : UserDataCell α) =
          .ok ⟨.SharedCount (k + 1), true, some v⟩) ∧
    (∀ (α : Type) (v : α),
        borrow_exclusive (⟨.Free, true, some v⟩ : UserDataCell α) =
          .ok (v, ⟨.Exclusive, true, some v⟩)) ∧
    (∀ (α : Type) (v : α),
        borrow_shared (⟨.Exclusive, true, some v⟩ : UserDataCell α) =
          .error .UserDataBorrowError) ∧
    (∀ (α : Type) (v : α),
        borrow_exclusive (⟨.Exclusive, true, some v⟩ : UserDataCell α) =
          .error .UserDataBorrowMutError) ∧
    (∀ (α : Type) (v : α) (n : ℕ),
        borrow_exclusive (⟨.SharedCount n, true, some v⟩ : UserDataCell α) =
          .error .UserDataBorrowMutError) := by
  have hiter : ∀ (α : Type) (v : α) (k m : ℕ),
      borrow_shared_iter k (⟨.SharedCount m, true, some v⟩ : UserDataCell α) =
        .ok ⟨.SharedCount (m + k), true, some v⟩ := by
    intro α v k
    induction k with
    | zero => intro m; simp [borrow_shared_iter]
    | succ k ih =>
        intro m
        simp only [borrow_shared_iter, borrow_shared]
        simpa [Nat.add_assoc, Nat.add_comm 1 k] using ih (m + 1)
  refine ⟨?_, ?_, ?_, ?_, ?_, ?_, ?_⟩
  · intro α v; simp [borrow_shared]
  · intro α v n; simp [borrow_shared]
  · intro α v k
    simp only [borrow_shared_iter, borrow_shared]
    simpa [Nat.add_comm 1 k] using hiter α v k 1
  · intro α v; simp [borrow_exclusive]
  · intro α v; simp [borrow_shared]
  · intro α v; simp [borrow_exclusive]
  · intro α v n; simp [borrow_exclusive]

/-- C8: numeric conversions follow the engine's native coercion rules: a
string holding a valid number literal ("123", "1.0") converts to a
numeric host type (with "1.0" converting exactly to the integer 1), while
a non-integral numeric value — 1.5, the string "1.5", or infinity — fails
conversion to an integer host type with `FromLuaConversionError`: it is
rejected, never rounded or truncated. -/
theorem numeric_coercion_rules :
    (from_lua_i64 (.str "123") = .ok 123) ∧
    (from_lua_i64 (.str "1.0") = .ok 1) ∧
    (from_lua_f64 (.str "1.0") = .ok (.finite 1)) ∧
    (from_lua_f64 (.str "1.5") = .ok (.finite (3 / 2))) ∧
    (from_lua_i64 (.str "1.5") = .error (.FromLuaConversionError "string" "i64" none)) ∧
    (from_lua_i64 (.number (.finite (mkRat 3 2))) =
      .error (.FromLuaConversionError "number" "i64" none)) ∧
    (from_lua_i64 (.number .inf) = .error (.FromLuaConversionError "number" "i64" none)) ∧
    (∀ q : ℚ, q.den ≠ 1 →
        from_lua_i64 (.number (.finite q)) =
          .error (.FromLuaConversionError "number" "i64" none)) := by
  refine ⟨by rfl, by rfl, by rfl, ?_, by rfl, by rfl, by rfl, ?_⟩
  · show Except.ok (LuaFloat.finite (mkRat 15 10)) = Except.ok (LuaFloat.finite (3 / 2))
    exact congrArg (fun q => Except.ok (LuaFloat.finite q))
      (by norm_num [Rat.mkRat_eq_div])
  · intro q hq
    simp [from_lua_i64, lua_tointegerx, numAsInteger, luaTypeName, hq]

/-- Witness for C8 at the concrete non-integral float 3/2: its denominator
is not 1 and its integer conversion is rejected. -/
theorem numeric_coercion_rules_witness :
    ((mkRat 3 2).den ≠ 1) ∧
    from_lua_i64 (.number (.finite (mkRat 3 2))) =
      .error (.FromLuaConversionError "number" "i64" none) :=
  ⟨by decide, numeric_coercion_rules.2.2.2.2.2.2.2 (mkRat 3 2) (by decide)⟩

/-- C9: `bind_call_impl` hands the target function exactly the bound
arguments followed by the call-time arguments, so `f.bind(A)` called with
`B` behaves as `f` called with `A ++ B`, and stacked binds compose left to
right: `f.bind(A).bind(B)` called with `C` reaches `f` with
`A ++ B ++ C`. -/
theorem bind_prepends_arguments :
    (∀ (func : LuaValue) (binds frame : List LuaValue),
        bind_call_impl func binds frame = (func, binds ++ frame)) ∧
    (∀ (g : List LuaValue → CallOutcome) (A B C : List LuaValue),
        runCallable (.bound (.bound (.base g) A) B) C = g (A ++ B ++ C)) := by
  have hset : ∀ (pre l : Frame) (b : LuaValue),
      (pre ++ l).set pre.length b = pre ++ l.set 0 b := by
    intro pre
    induction pre with
    | nil => intro l b; simp
    | cons x xs ih => intro l b; simp [List.set, ih]
  have hfill : ∀ (bs : List LuaValue) (pre tail : Frame),
      fill_binds (pre ++ (List.replicate bs.length .nil ++ tail)) bs pre.length =
        pre ++ (bs ++ tail) := by
    intro bs
    induction bs with
    | nil => intro pre tail; simp [fill_binds]
    | cons b bs ih =>
        intro pre tail
        simp only [fill_binds, frame_replace, List.length_cons, List.replicate_succ,
          List.cons_append]
        rw [hset pre (LuaValue.nil :: (List.replicate bs.length LuaValue.nil ++ tail)) b]
        simp only [List.set]
        have h := ih (pre ++ [b]) tail
        simpa [List.append_assoc] using h
  have himpl : ∀ (func : LuaValue) (binds frame : List LuaValue),
      bind_call_impl func binds frame = (func, binds ++ frame) := by
    intro func binds frame
    simp only [bind_call_impl, frame_settop, frame_rotate_whole, frame_replace]
    rw [if_neg (by omega)]
    have hc : frame.length + binds.length + 1 - frame.length = binds.length + 1 := by
      omega
    rw [hc]
    have hlen : (frame ++ List.replicate (binds.length + 1) LuaValue.nil).length
        - (binds.length + 1) = frame.length := by simp
    rw [hlen, List.drop_left, List.take_left]
    simp only [List.replicate_succ, List.cons_append, List.set]
    have h := hfill binds [func] frame
    simp only [List.singleton_append, List.length_singleton] at h
    simp only [List.append_eq]
    rw [h]
    simp
  refine ⟨himpl, ?_⟩
  intro g A B C
  simp [runCallable, himpl, List.append_assoc]

/-- C10: converting a call's multi-value result list to a host tuple with
fewer positions than values succeeds by consuming values front-to-back
and silently discarding the unclaimed excess, while a trailing variadic
position instead captures all remaining values in their original order —
as in `test_lua_multi`, where six results convert to `(1, 2)` and to
`(1, 2, [3, 4, 5, 6])`. -/
theorem multi_value_tuple_conversion :
    (∀ (α β : Type) (fa : LuaValue → Except Error α) (fb : LuaValue → Except Error β)
        (v1 v2 : LuaValue) (rest : List LuaValue),
        from_lua_multi_pair fa fb (v1 :: v2 :: rest) =
          from_lua_multi_pair fa fb [v1, v2]) ∧
    (∀ (α β γ : Type) (fa : LuaValue → Except Error α) (fb : LuaValue → Except Error β)
        (fc : LuaValue → Except Error γ) (v1 v2 : LuaValue) (rest : List LuaValue),
        from_lua_multi_pair_variadic fa fb fc (v1 :: v2 :: rest) =
          (fa v1).bind (fun a => (fb v2).bind (fun b =>
            (rest.mapM fc).map (fun cs => (a, b, cs))))) ∧
    (from_lua_multi_pair from_lua_i64 from_lua_i64
        [.integer 1, .integer 2, .integer 3, .integer 4, .integer 5, .integer 6] =
      .ok (1, 2)) ∧
    (from_lua_multi_pair_variadic from_lua_i64 from_lua_i64 from_lua_i64
        [.integer 1, .integer 2, .integer 3, .integer 4, .integer 5, .integer 6] =
      .ok (1, 2, [3, 4, 5, 6])) := by
  refine ⟨?_, ?_, by rfl, by rfl⟩
  · intro α β fa fb v1 v2 rest
    rfl
  · intro α β γ fa fb fc v1 v2 rest
    simp only [from_lua_multi_pair_variadic, List.headD, List.drop]
    rcases fa v1 with e | a
    · rfl
    · rcases fb v2 with e | b
      · rfl
      · rcases rest.mapM fc with e | cs <;> rfl
